import Mathlib

/-!
Verification of the rssbrief feed-ingestion and brief-generation pipeline.

The definitions below are shallow embeddings of the TypeScript source under
`src/convex/` (briefs.ts, feeds.ts, schema.ts, utils.ts) and of the earlier
iterations of the scheduler kept alongside it.  Machine timestamps are
modelled as `Int` (JavaScript millisecond epoch values), database tables as
lists of rows, and fallible external calls (RSS parse, content extraction,
AI generation) as oracle functions returning `Except`.

The file is organised as: definitions (embedding of the data model and
operations), then helper lemmas and the claim theorems.
-/

namespace RssBrief

/-- Millisecond time constants, from `TIME_CONSTANTS` in utils.ts. -/
def ONE_MINUTE : Int := 60 * 1000

def ONE_HOUR : Int := 60 * 60 * 1000

def ONE_DAY : Int := 24 * 60 * 60 * 1000

def ONE_WEEK : Int := 7 * 24 * 60 * 60 * 1000

/-! ### Digest scheduler (briefs.ts `getUsersNeedingWeeklyDigest`) -/

/-- A row of the `preferences` table, restricted to the fields the digest
scheduler reads: `onboarded`, `notifications.email` and the brief schedule
`{ hour, dayOfWeek, timezone }`. -/
structure Pref where
  userId : Nat
  onboarded : Bool
  email : Bool
  hour : Nat
  dayOfWeek : Nat
  timezone : String
  deriving DecidableEq, Repr

/-- `getUsersNeedingWeeklyDigest` (briefs.ts): query the preferences whose
stored schedule `hour`/`dayOfWeek` equal the *current UTC* hour and weekday,
filter to onboarded users with email notifications on, and return
`(userId, timezone)` pairs.  The stored timezone is not consulted by the
selection. -/
def getUsersNeedingWeeklyDigest (utcHour utcDay : Nat) (prefs : List Pref) :
    List (Nat × String) :=
  ((prefs.filter fun p => p.hour == utcHour && p.dayOfWeek == utcDay).filter
      fun p => p.onboarded && p.email).map
    fun p => (p.userId, p.timezone)

/-- Modelled from the spec: the projection of a UTC instant into the IANA
zone `America/New_York` is performed by the external `date-fns-tz` library,
which is not part of this repository.  New York is 5 hours behind UTC in
standard time and 4 hours behind during DST. -/
def nyUtcOffsetHours (dst : Bool) : Nat := if dst then 4 else 5

/-- Modelled from the spec: the local hour in `America/New_York` for a UTC
hour of day. -/
def nyLocalHour (utcHour : Nat) (dst : Bool) : Nat :=
  (utcHour + 24 - nyUtcOffsetHours dst) % 24

/-- Modelled from the spec: the local weekday in `America/New_York` for a
UTC weekday/hour pair (the day steps back when the offset crosses
midnight). -/
def nyLocalDay (utcDay utcHour : Nat) (dst : Bool) : Nat :=
  if utcHour < nyUtcOffsetHours dst then (utcDay + 6) % 7 else utcDay

/-- C1 data: the user preference record of the claim. -/
def c1Pref : Pref :=
  { userId := 1, onboarded := true, email := true
    hour := 9, dayOfWeek := 1, timezone := "America/New_York" }

/-! ### Offset-enumeration scheduler (`generateScheduledBriefs`, earlier
iteration, src/unnamed/part_020 and part_021) -/

/-- The candidate timezone offsets `-12..14` enumerated by
`generateScheduledBriefs`. -/
def tzOffsets : List Int := (List.range 27).map fun i => (i : Int) - 12

/-- `(currentHour + timezoneOffset + 24) % 24` from
`generateScheduledBriefs`; both operands are nonnegative so the JavaScript
`%` agrees with mathematical mod. -/
def localHourFor (utcHour : Nat) (o : Int) : Nat :=
  (((utcHour : Int) + o + 24) % 24).toNat

/-- The sequence of `(dayOfWeek, hour)` pairs passed to
`getUsersReadyForBrief` in one run of `generateScheduledBriefs`: the
day-of-week is held fixed at the current UTC day for every offset. -/
def scheduledBriefQueries (utcHour utcDay : Nat) : List (Nat × Nat) :=
  tzOffsets.map fun o => (utcDay, localHourFor utcHour o)

/-- How many times one run of `generateScheduledBriefs` triggers
`generateBriefForUser` for a user with the given schedule: once per query
whose `(dayOfWeek, hour)` pair matches the stored schedule
(`getUsersReadyForBrief` is an exact index match with no further filter). -/
def userTriggerCount (p : Pref) (utcHour utcDay : Nat) : Nat :=
  (scheduledBriefQueries utcHour utcDay).countP
    fun q => q.1 == p.dayOfWeek && q.2 == p.hour

/-- The multiset of local hours enumerated in one scheduler run. -/
def scheduledLocalHours (utcHour : Nat) : List Nat :=
  tzOffsets.map (localHourFor utcHour)

/-! ### Stable sort used to model `Array.prototype.sort` -/

/-- Insert an element into a sorted list: model of one step of a stable
sort with comparator `le` ("a sorts at or before b"). -/
def sortInsert {α : Type} (le : α → α → Bool) (a : α) : List α → List α
  | [] => [a]
  | b :: l => if le a b then a :: b :: l else b :: sortInsert le a l

/-- Insertion sort; models JavaScript's stable `Array.prototype.sort` up to
the ordering guarantee used by the claims (the sorted list is a permutation
of the input). -/
def sortB {α : Type} (le : α → α → Bool) : List α → List α
  | [] => []
  | a :: l => sortInsert le a (sortB le l)

/-! ### Feed refresh cycle fetch sets (feeds.ts `updateAllFeeds`,
schema.ts-adjacent `updateUserFeeds`, briefs.ts
`updateFeedsAndGenerateBriefs`) -/

/-- A row of the `topicFeeds` table (feed-topic link, scoped by following
user; `userId` is null for curated topics). -/
structure TopicFeed where
  feedId : Nat
  topicId : Nat
  userId : Option Nat
  deriving DecidableEq, Repr

/-- A row of the `feeds` table. -/
structure Feed where
  id : Nat
  url : String
  updatedAt : Option Int
  deriving DecidableEq, Repr

/-- Adding a key to a JavaScript `Map` keeps the first-insertion order and
never duplicates a key. -/
def insertMapKey (acc : List Nat) (k : Nat) : List Nat :=
  if k ∈ acc then acc else acc ++ [k]

/-- `updateAllFeeds` (feeds.ts): the keys of the `feedFollowCounts` map —
feed ids of topicFeed links that have a following user, de-duplicated. -/
def feedsWithFollows (tfs : List TopicFeed) : List Nat :=
  (tfs.filter fun tf => tf.userId.isSome).foldl
    (fun acc tf => insertMapKey acc tf.feedId) []

/-- `getFeedById`: first feed row with the given id. -/
def getFeedById (db : List Feed) (i : Nat) : Option Feed :=
  db.find? fun f => f.id == i

/-- The follow count of a feed id in `feedFollowCounts`. -/
def followCount (tfs : List TopicFeed) (i : Nat) : Nat :=
  (tfs.filter fun tf => tf.userId.isSome && tf.feedId == i).length

/-- The sort comparator of `updateAllFeeds`: more-followed feeds first,
ties broken by older `updatedAt` (`(a.updatedAt || 0) - (b.updatedAt || 0)`). -/
def feedLe (tfs : List TopicFeed) (a b : Feed) : Bool :=
  if followCount tfs a.id = followCount tfs b.id then
    decide (a.updatedAt.getD 0 ≤ b.updatedAt.getD 0)
  else decide (followCount tfs b.id < followCount tfs a.id)

/-- The feed ids fetched (passed to `safeParseRSS`) by one invocation of
`updateAllFeeds` (feeds.ts): de-duplicated followed feed ids, resolved
through `getFeedById` (dropping missing rows), sorted, then fetched once
each in a loop. -/
def updateAllFeedsFetchIds (tfs : List TopicFeed) (db : List Feed) : List Nat :=
  let ids := feedsWithFollows tfs
  let validFeeds := ids.filterMap (getFeedById db)
  (sortB (feedLe tfs) validFeeds).map (·.id)

/-- The feed ids fetched by one invocation of `updateUserFeeds`
(the per-user refresh in the schema.ts-adjacent feeds module): one fetch
per `topicFeeds` link of that user whose feed row exists and has a
non-empty url — with no de-duplication. -/
def updateUserFeedsFetchIds (u : Nat) (tfs : List TopicFeed) (db : List Feed) :
    List Nat :=
  let userTopicFeeds := tfs.filter fun tf => tf.userId == some u
  let feeds := (userTopicFeeds.map (·.feedId)).map (getFeedById db)
  let validFeeds := (feeds.filterMap id).filter fun f => f.url != ""
  (validFeeds.filter fun f => f.url != "").map (·.id)

/-- The feed ids fetched over one scheduled cycle of
`updateFeedsAndGenerateBriefs` (briefs.ts), which runs `updateUserFeeds`
once per onboarded user. -/
def cycleFetchIds (onboarded : List Nat) (tfs : List TopicFeed) (db : List Feed) :
    List Nat :=
  (onboarded.map fun u => updateUserFeedsFetchIds u tfs db).flatten

/-- C3 data: one feed followed by two distinct users (two topicFeed links). -/
def c3TopicFeeds : List TopicFeed :=
  [{ feedId := 7, topicId := 0, userId := some 1 },
   { feedId := 7, topicId := 1, userId := some 2 }]

/-- C3 data: the feeds table holding the shared feed. -/
def c3Feeds : List Feed :=
  [{ id := 7, url := "https://example.com/feed.xml", updatedAt := none }]

/-! ### Weekly digest assembly (briefs.ts `generateWeeklyDigest` and the
earlier iteration of the same function kept next to utils.ts) -/

/-- The summary style from user preferences (`concise | detailed`). -/
inductive Style where
  | concise
  | detailed
  deriving DecidableEq, Repr

/-- One row returned by `getBriefItemsWithTopics`, restricted to the fields
digest assembly reads. -/
structure DigestBrief where
  topicName : String
  createdAt : Int
  url : String
  title : String
  summary : String
  deriving DecidableEq, Repr

/-- A digest entry `{ url, title, summary }`. -/
structure DigestItem where
  url : String
  title : String
  summary : String
  deriving DecidableEq, Repr

/-- One element of `topicSummaries` in the `WeeklyDigest`. -/
structure TopicSummary where
  topicName : String
  count : Nat
  topItems : List DigestItem
  deriving DecidableEq, Repr

/-- Pushing one brief into the `topicGroups` map (JavaScript `Map` keyed by
topic name, insertion ordered). -/
def addToGroups (gs : List (String × List DigestBrief)) (b : DigestBrief) :
    List (String × List DigestBrief) :=
  if gs.any fun g => g.1 == b.topicName then
    gs.map fun g => if g.1 == b.topicName then (g.1, g.2 ++ [b]) else g
  else gs ++ [(b.topicName, [b])]

/-- The `topicGroups` map built by `generateWeeklyDigest`. -/
def topicGroups (briefs : List DigestBrief) : List (String × List DigestBrief) :=
  briefs.foldl addToGroups []

/-- The comparator `(a, b) => b.createdAt - a.createdAt` (newest first). -/
def briefNewestFirst (a b : DigestBrief) : Bool :=
  decide (b.createdAt ≤ a.createdAt)

/-- `topicSummaries` as assembled by the *current* `generateWeeklyDigest`
(briefs.ts): per topic, `count` is the group size and `topItems` is the
whole group sorted newest-first — there is no slice and the style is not
consulted. -/
def topicSummariesCurrent (briefs : List DigestBrief) : List TopicSummary :=
  (topicGroups briefs).map fun g =>
    { topicName := g.1
      count := g.2.length
      topItems := (sortB briefNewestFirst g.2).map fun b =>
        { url := b.url, title := b.title, summary := b.summary } }

/-- `maxArticles = style === 'detailed' ? 5 : 1` from the earlier iteration
of `generateWeeklyDigest`. -/
def maxArticlesFor (style : Style) : Nat :=
  match style with
  | .detailed => 5
  | .concise => 1

/-- `topicSummaries` as assembled by the *earlier* iteration of
`generateWeeklyDigest` (the version kept next to utils.ts): the sorted
group is cut with `.slice(0, maxArticles)`. -/
def topicSummariesOld (style : Style) (briefs : List DigestBrief) :
    List TopicSummary :=
  (topicGroups briefs).map fun g =>
    { topicName := g.1
      count := g.2.length
      topItems := ((sortB briefNewestFirst g.2).take (maxArticlesFor style)).map
        fun b => { url := b.url, title := b.title, summary := b.summary } }

/-- C2 data: eight candidate briefs in one topic. -/
def c2Briefs : List DigestBrief :=
  (List.range 8).map fun i =>
    { topicName := "tech", createdAt := (i : Int)
      url := toString i, title := "t", summary := "s" }

/-! ### Brief compiler (briefs.ts `processFeedItem`, `saveBriefItem`,
`updateUserBriefs`; utils.ts `createPrompt`) -/

/-- `ProcessingError` (utils.ts): the error payload of the neverthrow
`Result` values at the I/O boundaries. -/
structure ProcessingError where
  step : String
  message : String
  url : Option String := none
  deriving DecidableEq, Repr

/-- The `data` payload of a content-extraction response, restricted to the
fields the pipeline reads. -/
structure ExtractedData where
  title : String
  content : String
  deriving DecidableEq, Repr

/-- The content-extraction response shape `{ data: { title, content } }`. -/
structure ExtractResponse where
  data : ExtractedData
  deriving DecidableEq, Repr

/-- A processed feed item `{ url, title, summary }` (utils.ts). -/
structure ProcessedFeedItem where
  url : String
  title : String
  summary : String
  deriving DecidableEq, Repr

/-- The instruction appended by `createPrompt` for the `concise` style. -/
def concisePromptSuffix : String :=
  "\n\nPlease provide a concise, focused response. Keep your answer brief and to the point, highlighting only the most essential information."

/-- The instruction appended by `createPrompt` for the `detailed` style. -/
def detailedPromptSuffix : String :=
  "\n\nPlease provide a comprehensive, detailed response. Include relevant context, examples, explanations, and thoroughly explore all important aspects of the topic."

/-- JavaScript `String.prototype.trim`: strip leading and trailing
whitespace (structurally recursive so that concrete inputs evaluate). -/
def jsTrim (s : String) : String :=
  String.mk
    (((s.data.dropWhile Char.isWhitespace).reverse.dropWhile
        Char.isWhitespace).reverse)

/-- `createPrompt` (utils.ts): *throws* (modelled as `Except.error`) when
the input text trims to empty (`!text.trim()`); otherwise appends the
style-specific instruction to the trimmed text. -/
def createPrompt (text : String) (style : Style) : Except String String :=
  if jsTrim text = "" then .error "Input text cannot be empty"
  else
    match style with
    | .concise => .ok (jsTrim text ++ concisePromptSuffix)
    | .detailed => .ok (jsTrim text ++ detailedPromptSuffix)

/-- `processFeedItem` (briefs.ts).  The outer `Except String` models a
thrown JavaScript exception rejecting the promise; the inner
`Except ProcessingError` models the neverthrow `Result` the function
normally returns.  `extract` and `gen` are oracles for
`safeExtractContent` and `safeGenerateText`, which never throw (both wrap
failures with `fromPromise`), while `createPrompt` is called bare and its
exception propagates. -/
def processFeedItem (extract : String → Except ProcessingError ExtractResponse)
    (gen : String → Except ProcessingError String) (url : String)
    (style : Style) :
    Except String (Except ProcessingError ProcessedFeedItem) :=
  match extract url with
  | .error e => .ok (.error e)
  | .ok resp =>
    match createPrompt resp.data.content style with
    | .error exn => .error exn
    | .ok prompt =>
      match gen prompt with
      | .error e => .ok (.error e)
      | .ok summary =>
        .ok (.ok { url := url, title := resp.data.title, summary := summary })

/-- A feed item as seen by the brief compiler. -/
structure FeedItem where
  id : Nat
  url : String
  deriving DecidableEq, Repr

/-- A row of the `briefItems` table (with its document id). -/
structure BriefRow where
  id : Nat
  userId : Nat
  feedItemId : Nat
  title : String
  summary : String
  url : String
  deriving DecidableEq, Repr

/-- The `briefItems` table plus the id allocator. -/
structure SaveState where
  rows : List BriefRow
  nextId : Nat
  deriving DecidableEq, Repr

/-- The `by_user_and_feedItem` index lookup with `.first()`. -/
def findBrief (s : SaveState) (u fi : Nat) : Option BriefRow :=
  s.rows.find? fun r => r.userId == u && r.feedItemId == fi

/-- `saveBriefItem` (briefs.ts): if a row for `(user, feedItem)` already
exists return its id and change nothing, otherwise insert a new row. -/
def saveBriefItem (s : SaveState) (u fi : Nat) (title summary url : String) :
    Nat × SaveState :=
  match findBrief s u fi with
  | some r => (r.id, s)
  | none =>
    (s.nextId,
      { rows := s.rows ++
          [{ id := s.nextId, userId := u, feedItemId := fi, title := title,
             summary := summary, url := url }]
        nextId := s.nextId + 1 })

/-- Number of Brief Item rows stored for a `(user, feedItem)` pair. -/
def briefCount (s : SaveState) (u fi : Nat) : Nat :=
  s.rows.countP fun r => r.userId == u && r.feedItemId == fi

/-- `getExistingBriefItems` (briefs.ts): among the given feed item ids, the
ones that already have a brief for this user (the source wraps the result
in a `Set`, which only affects duplication, not membership). -/
def existingBriefFeedItemIds (s : SaveState) (u : Nat) (items : List FeedItem) :
    List Nat :=
  (s.rows.filter fun r =>
      r.userId == u && items.any fun it => it.id == r.feedItemId).map
    fun r => r.feedItemId

/-- `feedItemsToProcess` from `updateUserBriefs`: drop items whose id is in
the existing set. -/
def feedItemsToProcess (s : SaveState) (u : Nat) (items : List FeedItem) :
    List FeedItem :=
  items.filter fun it => decide (it.id ∉ existingBriefFeedItemIds s u items)

/-- The batch body of `updateUserBriefs`: process the items in order; a
thrown exception (`Except.error`) from `processFeedItem` rejects the whole
batch (`Promise.all` rejects); an `err` result is logged and skips only
that item; an `ok` result is saved through `saveBriefItem` and the
`{ url: feedItem.url, title, summary }` record is collected. -/
def runItems (extract : String → Except ProcessingError ExtractResponse)
    (gen : String → Except ProcessingError String) (u : Nat) (style : Style) :
    SaveState → List FeedItem →
      Except String (List ProcessedFeedItem × SaveState)
  | s, [] => .ok ([], s)
  | s, it :: rest =>
    match processFeedItem extract gen it.url style with
    | .error exn => .error exn
    | .ok (.error _) => runItems extract gen u style s rest
    | .ok (.ok v) =>
      match runItems extract gen u style
          (saveBriefItem s u it.id v.title v.summary it.url).2 rest with
      | .error exn => .error exn
      | .ok (l, s₂) =>
        .ok ({ url := it.url, title := v.title, summary := v.summary } :: l, s₂)

/-- `updateUserBriefs` (briefs.ts), given the feed items of the lookback
window: filter out already-saved items, then run the batch. -/
def updateUserBriefsRun
    (extract : String → Except ProcessingError ExtractResponse)
    (gen : String → Except ProcessingError String) (u : Nat) (style : Style)
    (s : SaveState) (items : List FeedItem) :
    Except String (List ProcessedFeedItem × SaveState) :=
  runItems extract gen u style s (feedItemsToProcess s u items)

/-! ### Feed refresh cutoff and ingestion (feeds.ts `updateAllFeeds` item
loop, and the identical logic in the per-user `updateUserFeeds`) -/

/-- A parsed RSS item `{ link?, pubDate? }`. -/
structure RSSItem where
  link : Option String
  pubDate : Option String
  deriving DecidableEq, Repr

/-- `publishedAt`: `now` unless `item.pubDate` is truthy (present and
non-empty) and parses to a valid date.  `parseDate` is the oracle for
JavaScript `new Date(s).getTime()`, `none` meaning `NaN`. -/
def computePublishedAt (parseDate : String → Option Int) (now : Int)
    (it : RSSItem) : Int :=
  match it.pubDate with
  | none => now
  | some s => if s = "" then now else (parseDate s).getD now

/-- `isFirstFetch = !feed.updatedAt` (JavaScript falsiness: missing or 0). -/
def isFirstFetch (updatedAt : Option Int) : Bool :=
  match updatedAt with
  | none => true
  | some t => t == 0

/-- `cutoffDate = isFirstFetch ? sevenDaysAgo : feed.updatedAt`. -/
def refreshCutoff (now : Int) (updatedAt : Option Int) : Int :=
  if isFirstFetch updatedAt then now - ONE_WEEK else updatedAt.getD 0

/-- `(cutoffDate || 0)` — JavaScript falsiness once more. -/
def cutoffOrZero (c : Int) : Int := if c == 0 then 0 else c

/-- The per-item decision of the refresh loop: skip items without a truthy
`link`; compute `publishedAt`; `continue` when `publishedAt < (cutoffDate
|| 0)`; skip urls that already exist in the feed-item table (global dedup
by source URL, checked against the table as it stood before this feed's
inserts); otherwise ingest `(url, publishedAt)`. -/
def itemDecision (parseDate : String → Option Int) (now : Int)
    (updatedAt : Option Int) (db : List String) (it : RSSItem) :
    Option (String × Int) :=
  match it.link with
  | none => none
  | some u =>
    if u = "" then none
    else
      if computePublishedAt parseDate now it <
          cutoffOrZero (refreshCutoff now updatedAt) then none
      else if u ∈ db then none
      else some (u, computePublishedAt parseDate now it)

/-- The feed items inserted for one feed by one refresh run
(`updateUserFeeds`): the surviving `(url, publishedAt)` pairs of the
payload.  All existence checks run before the batch insert, so the whole
payload is judged against the pre-run table. -/
def newFeedItems (parseDate : String → Option Int) (now : Int)
    (updatedAt : Option Int) (db : List String) (items : List RSSItem) :
    List (String × Int) :=
  items.filterMap (itemDecision parseDate now updatedAt db)

/-! ### Whole-batch refresh (feeds.ts `updateAllFeeds`) -/

/-- A row of the `articles` table (the feeds.ts iteration stores extracted
content alongside the feed item). -/
structure Article where
  url : String
  feedId : Nat
  publishedAt : Int
  title : String
  content : String
  deriving DecidableEq, Repr

/-- The state a refresh batch threads: the `articles` table and each
feed's `updatedAt` checkpoint. -/
structure RefreshState where
  articles : List Article
  checkpoints : Nat → Option Int

/-- One feed's item loop in `updateAllFeeds`: surviving items are run
through content extraction (`extract` oracle; `none` models a non-2xx
response or a thrown/timeout error, which `continue`s) and collected. -/
def collectNewArticles (parseDate : String → Option Int)
    (extract : String → Option (String × String)) (now : Int)
    (updatedAt : Option Int) (db : List String) (feedId : Nat)
    (items : List RSSItem) : List Article :=
  items.filterMap fun it =>
    match itemDecision parseDate now updatedAt db it with
    | none => none
    | some (u, p) =>
      match extract u with
      | none => none
      | some (t, c) =>
        some { url := u, feedId := feedId, publishedAt := p, title := t,
               content := c }

/-- One iteration of the `updateAllFeeds` feed loop: a fetch/parse failure
`continue`s without touching the state; an empty payload `continue`s as
well; otherwise the new articles are inserted and the feed's checkpoint is
advanced to `now` regardless of per-item extraction failures. -/
def processFeedStep (parseDate : String → Option Int)
    (extract : String → Option (String × String)) (now : Int)
    (st : RefreshState) (fp : Feed × Except ProcessingError (List RSSItem)) :
    RefreshState :=
  match fp.2 with
  | .error _ => st
  | .ok items =>
    if items.isEmpty then st
    else
      { articles := st.articles ++
          collectNewArticles parseDate extract now fp.1.updatedAt
            (st.articles.map fun a => a.url) fp.1.id items
        checkpoints := fun i =>
          if i = fp.1.id then some now else st.checkpoints i }

/-- The `updateAllFeeds` loop over a batch of feeds paired with their
`safeParseRSS` outcomes. -/
def updateAllFeedsRun (parseDate : String → Option Int)
    (extract : String → Option (String × String)) (now : Int)
    (st : RefreshState)
    (feeds : List (Feed × Except ProcessingError (List RSSItem))) :
    RefreshState :=
  feeds.foldl (processFeedStep parseDate extract now) st

end RssBrief

namespace RssBrief

/-! ### Helper lemmas -/

theorem perm_sortInsert {α : Type} (le : α → α → Bool) (a : α) :
    ∀ l : List α, List.Perm (sortInsert le a l) (a :: l)
  | [] => List.Perm.refl _
  | b :: l => by
    unfold sortInsert
    split
    · exact List.Perm.refl _
    · exact ((perm_sortInsert le a l).cons b).trans (List.Perm.swap a b l)

theorem perm_sortB {α : Type} (le : α → α → Bool) :
    ∀ l : List α, List.Perm (sortB le l) l
  | [] => List.Perm.refl _
  | a :: l => (perm_sortInsert le a _).trans ((perm_sortB le l).cons a)

theorem length_sortB {α : Type} (le : α → α → Bool) (l : List α) :
    (sortB le l).length = l.length :=
  (perm_sortB le l).length_eq

theorem nodup_insertMapKey {acc : List Nat} (k : Nat) (h : acc.Nodup) :
    (insertMapKey acc k).Nodup := by
  unfold insertMapKey
  split
  · exact h
  · next hc => simp [List.nodup_append, h, hc]

theorem nodup_foldl_insertMapKey {α : Type} (key : α → Nat) :
    ∀ (l : List α) (acc : List Nat), acc.Nodup →
      (l.foldl (fun a x => insertMapKey a (key x)) acc).Nodup
  | [], _, h => h
  | x :: l, acc, h =>
    nodup_foldl_insertMapKey key l (insertMapKey acc (key x))
      (nodup_insertMapKey (key x) h)

theorem nodup_feedsWithFollows (tfs : List TopicFeed) :
    (feedsWithFollows tfs).Nodup := by
  unfold feedsWithFollows
  exact nodup_foldl_insertMapKey (fun tf => tf.feedId)
    (tfs.filter fun tf => tf.userId.isSome) [] List.nodup_nil

theorem fetchIds_sublist (db : List Feed) :
    ∀ ids : List Nat,
      ((ids.filterMap (getFeedById db)).map (·.id)).Sublist ids
  | [] => List.Sublist.refl _
  | i :: ids => by
    cases h : getFeedById db i with
    | none =>
      simpa [List.filterMap_cons, h] using
        (fetchIds_sublist db ids).cons i
    | some f =>
      have hf : f.id = i := by
        have := List.find?_some h
        simpa using this
      simpa [List.filterMap_cons, h, hf] using
        (fetchIds_sublist db ids).cons₂ i

/-! ### C1: digest due-time computation -/

/-- **C1, counterexample.**  At UTC Monday 14:00 in standard time the local
time in `America/New_York` is Monday 09:00, so the claim requires the user
`{hour 9, dayOfWeek 1, America/New_York}` to be selected as due; but
`getUsersNeedingWeeklyDigest` selects nobody.  Conversely at UTC Monday
09:00 — local Monday 04:00, not a due instant under the claim — the user
*is* selected. -/
theorem c1_due_time_counterexample :
    (nyLocalHour 14 false = 9 ∧ nyLocalDay 1 14 false = 1 ∧
      getUsersNeedingWeeklyDigest 14 1 [c1Pref] = []) ∧
    (nyLocalHour 9 false = 4 ∧
      getUsersNeedingWeeklyDigest 9 1 [c1Pref] = [(1, "America/New_York")]) := by
  decide

/-- **C1, amended.**  An onboarded user with email notifications enabled is
selected as due by `getUsersNeedingWeeklyDigest` exactly when the *current
UTC hour and UTC weekday* equal the stored `hour` and `dayOfWeek`; the
stored IANA timezone plays no part in the selection (it is only returned
alongside the user id). -/
theorem c1_selection_is_utc_only (p : Pref) (utcHour utcDay : Nat)
    (ho : p.onboarded = true) (he : p.email = true) :
    getUsersNeedingWeeklyDigest utcHour utcDay [p] =
      if p.hour = utcHour ∧ p.dayOfWeek = utcDay then [(p.userId, p.timezone)]
      else [] := by
  by_cases h1 : p.hour = utcHour <;> by_cases h2 : p.dayOfWeek = utcDay <;>
    simp [getUsersNeedingWeeklyDigest, h1, h2, ho, he]

/-- Witness for `c1_selection_is_utc_only` at a concrete preference row. -/
theorem c1_selection_is_utc_only_witness :
    getUsersNeedingWeeklyDigest 9 1
        [{ userId := 7, onboarded := true, email := true, hour := 9,
           dayOfWeek := 1, timezone := "Europe/Paris" }] =
      [(7, "Europe/Paris")] := by
  have h := c1_selection_is_utc_only
    { userId := 7, onboarded := true, email := true, hour := 9,
      dayOfWeek := 1, timezone := "Europe/Paris" } 9 1 rfl rfl
  simpa using h

/-! ### C10: duplicated offsets in the enumeration scheduler -/

theorem scheduledBriefQueries_eq (utcHour utcDay : Nat) :
    scheduledBriefQueries utcHour utcDay =
      (scheduledLocalHours utcHour).map fun hr => (utcDay, hr) := by
  simp [scheduledBriefQueries, scheduledLocalHours, List.map_map]

theorem scheduledLocalHours_count :
    ∀ utcHour < 24, ∀ hr < 24,
      (scheduledLocalHours utcHour).countP (fun x => x == hr) =
        if hr = (utcHour + 12) % 24 ∨ hr = (utcHour + 13) % 24 ∨
            hr = (utcHour + 14) % 24 then 2 else 1 := by
  decide

/-- **C10.**  In one run of `generateScheduledBriefs` (offset enumeration
`-12..14` with the day-of-week held at the current UTC day): every query
issued keeps the UTC day-of-week unchanged; a local hour is queried twice
exactly when it is one of `(h+12)%24`, `(h+13)%24`, `(h+14)%24` (the hours
reached by two offsets differing by 24), and once otherwise; hence a user
whose stored day equals the UTC day and whose stored hour is one of those
three duplicated hours has `generateBriefForUser` triggered twice in the
single run. -/
theorem c10_offset_scheduler_duplicates (utcHour utcDay : Nat)
    (hh : utcHour < 24) :
    (∀ q ∈ scheduledBriefQueries utcHour utcDay, q.1 = utcDay) ∧
    (∀ hr : Nat, hr < 24 →
      (scheduledBriefQueries utcHour utcDay).countP (fun q => q.2 == hr) =
        if hr = (utcHour + 12) % 24 ∨ hr = (utcHour + 13) % 24 ∨
            hr = (utcHour + 14) % 24 then 2 else 1) ∧
    (∀ p : Pref, p.dayOfWeek = utcDay →
      (p.hour = (utcHour + 12) % 24 ∨ p.hour = (utcHour + 13) % 24 ∨
        p.hour = (utcHour + 14) % 24) →
      userTriggerCount p utcHour utcDay = 2) := by
  have hfirst : ∀ q ∈ scheduledBriefQueries utcHour utcDay, q.1 = utcDay := by
    intro q hq
    rw [scheduledBriefQueries_eq] at hq
    simp only [List.mem_map] at hq
    obtain ⟨hr, _, rfl⟩ := hq
    rfl
  have hcount : ∀ hr : Nat, hr < 24 →
      (scheduledBriefQueries utcHour utcDay).countP (fun q => q.2 == hr) =
        if hr = (utcHour + 12) % 24 ∨ hr = (utcHour + 13) % 24 ∨
            hr = (utcHour + 14) % 24 then 2 else 1 := by
    intro hr hhr
    rw [scheduledBriefQueries_eq, List.countP_map]
    exact scheduledLocalHours_count utcHour hh hr hhr
  refine ⟨hfirst, hcount, ?_⟩
  intro p hd hhour
  have hlt : p.hour < 24 := by
    rcases hhour with h | h | h <;> rw [h] <;> exact Nat.mod_lt _ (by decide)
  have heq : userTriggerCount p utcHour utcDay =
      (scheduledBriefQueries utcHour utcDay).countP (fun q => q.2 == p.hour) := by
    unfold userTriggerCount
    apply List.countP_congr
    intro q hq
    have hq1 : q.1 = utcDay := hfirst q hq
    simp [hq1, hd]
  rw [heq, hcount p.hour hlt, if_pos hhour]

/-- Witness for `c10_offset_scheduler_duplicates`: at UTC hour 9 on day 1,
the duplicated local hours are 21, 22, 23, and a user scheduled at
`(dayOfWeek 1, hour 21)` is triggered twice. -/
theorem c10_offset_scheduler_duplicates_witness :
    (∀ q ∈ scheduledBriefQueries 9 1, q.1 = 1) ∧
    ((scheduledBriefQueries 9 1).countP (fun q => q.2 == 21) = 2) ∧
    userTriggerCount
      { userId := 3, onboarded := true, email := true, hour := 21,
        dayOfWeek := 1, timezone := "UTC" } 9 1 = 2 := by
  have h := c10_offset_scheduler_duplicates 9 1 (by decide)
  refine ⟨h.1, ?_, ?_⟩
  · have := h.2.1 21 (by decide)
    simpa using this
  · exact h.2.2 _ rfl (by decide)

/-! ### C3: feed de-duplication across followers -/

/-- **C3, counterexample.**  Two users both follow feed 7; the scheduled
refresh cycle (`updateFeedsAndGenerateBriefs` running `updateUserFeeds`
once per onboarded user) fetches and parses feed 7 twice in the cycle —
once per follower — refuting "at most once per cycle". -/
theorem c3_shared_feed_counterexample :
    (cycleFetchIds [1, 2] c3TopicFeeds c3Feeds).count 7 = 2 ∧
    ¬ ((cycleFetchIds [1, 2] c3TopicFeeds c3Feeds).count 7 ≤ 1) := by
  decide

/-- **C3, amended.**  `updateAllFeeds` (feeds.ts) does de-duplicate feed
ids across all followers before fetching — it fetches every feed at most
once per invocation; but the scheduled cycle
(`updateFeedsAndGenerateBriefs`) instead runs `updateUserFeeds` per
onboarded user, which performs no cross-user de-duplication: a feed
followed by two users is fetched twice in one cycle. -/
theorem c3_dedup_amended :
    (∀ (tfs : List TopicFeed) (db : List Feed) (i : Nat),
      (updateAllFeedsFetchIds tfs db).count i ≤ 1) ∧
    (cycleFetchIds [1, 2] c3TopicFeeds c3Feeds).count 7 = 2 := by
  constructor
  · intro tfs db i
    have hperm : List.Perm
        ((sortB (feedLe tfs) ((feedsWithFollows tfs).filterMap
          (getFeedById db))).map (·.id))
        (((feedsWithFollows tfs).filterMap (getFeedById db)).map (·.id)) :=
      (perm_sortB (feedLe tfs) _).map _
    have hsub := fetchIds_sublist db (feedsWithFollows tfs)
    have hnd : (((feedsWithFollows tfs).filterMap (getFeedById db)).map
        (·.id)).Nodup :=
      (nodup_feedsWithFollows tfs).sublist hsub
    have hle := (List.nodup_iff_count_le_one.mp hnd) i
    calc (updateAllFeedsFetchIds tfs db).count i
        = (((feedsWithFollows tfs).filterMap (getFeedById db)).map
            (·.id)).count i := hperm.count_eq i
      _ ≤ 1 := hle
  · decide

/-! ### C2: style-driven digest truncation -/

/-- **C2, counterexample.**  With 8 candidate Brief Items in one topic, the
current `generateWeeklyDigest` (briefs.ts) puts all 8 into the topic's
`topItems`, whatever the user's style — it never consults the style and
applies no slice — so for a `concise` user the digest holds 8 entries for
the topic, not at most 1. -/
theorem c2_truncation_counterexample :
    ((topicSummariesCurrent c2Briefs).map fun ts => ts.topItems.length) = [8] ∧
    ¬ (8 ≤ 1) ∧ ¬ (8 ≤ 5) := by
  decide

/-- **C2, amended.**  The style-based cap exists only in the earlier
iteration of `generateWeeklyDigest`: there each topic's entries are cut to
`min(cap, candidates)` with cap 1 for `concise` and 5 for `detailed` (so 8
candidates yield 1 and 5 respectively).  The current `generateWeeklyDigest`
includes every candidate Brief Item of each topic in `topItems`, regardless
of style. -/
theorem c2_truncation_amended :
    (∀ briefs : List DigestBrief,
      ((topicSummariesCurrent briefs).map fun ts => ts.topItems.length) =
        (topicSummariesCurrent briefs).map fun ts => ts.count) ∧
    (∀ (style : Style) (briefs : List DigestBrief),
      ((topicSummariesOld style briefs).map fun ts => ts.topItems.length) =
        (topicSummariesOld style briefs).map fun ts =>
          min (maxArticlesFor style) ts.count) ∧
    ((topicSummariesOld .concise c2Briefs).map fun ts => ts.topItems.length) =
      [1] ∧
    ((topicSummariesOld .detailed c2Briefs).map fun ts => ts.topItems.length) =
      [5] := by
  refine ⟨?_, ?_, by decide, by decide⟩
  · intro briefs
    unfold topicSummariesCurrent
    simp only [List.map_map]
    apply List.map_congr_left
    intro g _
    simp [length_sortB]
  · intro style briefs
    unfold topicSummariesOld
    simp only [List.map_map]
    apply List.map_congr_left
    intro g _
    simp [List.length_take, length_sortB]

/-! ### Brief compiler lemmas -/

theorem findBrief_eq_none_iff (s : SaveState) (u fi : Nat) :
    findBrief s u fi = none ↔ briefCount s u fi = 0 := by
  unfold findBrief briefCount
  rw [List.find?_eq_none, List.countP_eq_zero]

theorem briefCount_pos_of_findBrief_some {s : SaveState} {u fi : Nat}
    {r : BriefRow} (h : findBrief s u fi = some r) :
    1 ≤ briefCount s u fi := by
  unfold findBrief at h
  have hmem := List.mem_of_find?_eq_some h
  have hpred := List.find?_some h
  unfold briefCount
  have hpos : 0 < s.rows.countP fun r => r.userId == u && r.feedItemId == fi :=
    List.countP_pos_iff.mpr ⟨r, hmem, hpred⟩
  omega

theorem briefCount_save (s : SaveState) (u fi : Nat) (t sm url : String)
    (u' fi' : Nat) :
    briefCount (saveBriefItem s u fi t sm url).2 u' fi' =
      if u' = u ∧ fi' = fi ∧ briefCount s u fi = 0 then
        briefCount s u' fi' + 1
      else briefCount s u' fi' := by
  unfold saveBriefItem
  cases h : findBrief s u fi with
  | some r =>
    have hpos : 1 ≤ briefCount s u fi := briefCount_pos_of_findBrief_some h
    have hcond : ¬ (u' = u ∧ fi' = fi ∧ briefCount s u fi = 0) := by
      rintro ⟨_, _, h0⟩; omega
    simp [hcond]
  | none =>
    have h0 : s.rows.countP (fun r => r.userId == u && r.feedItemId == fi) = 0 :=
      (findBrief_eq_none_iff s u fi).mp h
    by_cases h1 : u' = u <;> by_cases h2 : fi' = fi
    · subst h1; subst h2
      simp [briefCount, List.countP_append, List.countP_cons, h0]
    · have h2' : fi ≠ fi' := fun hx => h2 hx.symm
      subst h1
      simp [briefCount, List.countP_append, List.countP_cons, h2, h2']
    · have h1' : u ≠ u' := fun hx => h1 hx.symm
      simp [briefCount, List.countP_append, List.countP_cons, h1, h1']
    · have h1' : u ≠ u' := fun hx => h1 hx.symm
      simp [briefCount, List.countP_append, List.countP_cons, h1, h1']

theorem briefCount_save_le_one {s : SaveState} {u' fi' : Nat}
    (u fi : Nat) (t sm url : String) (h : briefCount s u' fi' ≤ 1) :
    briefCount (saveBriefItem s u fi t sm url).2 u' fi' ≤ 1 := by
  rw [briefCount_save]
  split
  · next hc =>
    obtain ⟨rfl, rfl, h0⟩ := hc
    omega
  · exact h

theorem briefCount_save_mono (s : SaveState) (u fi : Nat) (t sm url : String)
    (u' fi' : Nat) :
    briefCount s u' fi' ≤ briefCount (saveBriefItem s u fi t sm url).2 u' fi' := by
  rw [briefCount_save]
  split <;> omega

theorem briefCount_save_pos (s : SaveState) (u fi : Nat) (t sm url : String) :
    1 ≤ briefCount (saveBriefItem s u fi t sm url).2 u fi := by
  rw [briefCount_save]
  split
  · omega
  · next hc =>
    simp only [true_and] at hc
    omega

theorem runItems_nil (extract : String → Except ProcessingError ExtractResponse)
    (gen : String → Except ProcessingError String) (u : Nat) (style : Style)
    (s : SaveState) : runItems extract gen u style s [] = .ok ([], s) := rfl

theorem runItems_cons_exn (extract : String → Except ProcessingError ExtractResponse)
    (gen : String → Except ProcessingError String) (u : Nat) (style : Style)
    (s : SaveState) (it : FeedItem) (rest : List FeedItem) (m : String)
    (hp : processFeedItem extract gen it.url style = .error m) :
    runItems extract gen u style s (it :: rest) = .error m := by
  conv_lhs => unfold runItems
  rw [hp]

theorem runItems_cons_err (extract : String → Except ProcessingError ExtractResponse)
    (gen : String → Except ProcessingError String) (u : Nat) (style : Style)
    (s : SaveState) (it : FeedItem) (rest : List FeedItem) (e : ProcessingError)
    (hp : processFeedItem extract gen it.url style = .ok (.error e)) :
    runItems extract gen u style s (it :: rest) =
      runItems extract gen u style s rest := by
  conv_lhs => unfold runItems
  rw [hp]

theorem runItems_cons_ok (extract : String → Except ProcessingError ExtractResponse)
    (gen : String → Except ProcessingError String) (u : Nat) (style : Style)
    (s : SaveState) (it : FeedItem) (rest : List FeedItem)
    (v : ProcessedFeedItem)
    (hp : processFeedItem extract gen it.url style = .ok (.ok v)) :
    runItems extract gen u style s (it :: rest) =
      match runItems extract gen u style
          (saveBriefItem s u it.id v.title v.summary it.url).2 rest with
      | .error exn => .error exn
      | .ok (l, s₂) =>
        .ok ({ url := it.url, title := v.title, summary := v.summary } :: l, s₂) := by
  conv_lhs => unfold runItems
  rw [hp]

theorem runItems_ok_mono (extract : String → Except ProcessingError ExtractResponse)
    (gen : String → Except ProcessingError String) (u : Nat) (style : Style)
    (u' fi' : Nat) :
    ∀ (items : List FeedItem) (s : SaveState) (l : List ProcessedFeedItem)
      (s' : SaveState),
      runItems extract gen u style s items = .ok (l, s') →
      briefCount s u' fi' ≤ briefCount s' u' fi' := by
  intro items
  induction items with
  | nil =>
    intro s l s' h
    simp only [runItems, Except.ok.injEq, Prod.mk.injEq] at h
    rw [← h.2]
  | cons it rest ih =>
    intro s l s' h
    unfold runItems at h
    split at h
    · exact absurd h (by simp)
    · exact ih _ _ _ h
    · next v heq =>
      split at h
      · exact absurd h (by simp)
      · next l₂ s₂ hr =>
        simp only [Except.ok.injEq, Prod.mk.injEq] at h
        rw [← h.2]
        exact le_trans (briefCount_save_mono s u it.id v.title v.summary it.url
          u' fi') (ih _ _ _ hr)

theorem runItems_ok_le_one (extract : String → Except ProcessingError ExtractResponse)
    (gen : String → Except ProcessingError String) (u : Nat) (style : Style)
    (u' fi' : Nat) :
    ∀ (items : List FeedItem) (s : SaveState) (l : List ProcessedFeedItem)
      (s' : SaveState),
      runItems extract gen u style s items = .ok (l, s') →
      briefCount s u' fi' ≤ 1 → briefCount s' u' fi' ≤ 1 := by
  intro items
  induction items with
  | nil =>
    intro s l s' h hle
    simp only [runItems, Except.ok.injEq, Prod.mk.injEq] at h
    rw [← h.2]
    exact hle
  | cons it rest ih =>
    intro s l s' h hle
    unfold runItems at h
    split at h
    · exact absurd h (by simp)
    · exact ih _ _ _ h hle
    · next v heq =>
      split at h
      · exact absurd h (by simp)
      · next l₂ s₂ hr =>
        simp only [Except.ok.injEq, Prod.mk.injEq] at h
        rw [← h.2]
        exact ih _ _ _ hr (briefCount_save_le_one u it.id v.title v.summary
          it.url hle)

theorem runItems_ok_saved (extract : String → Except ProcessingError ExtractResponse)
    (gen : String → Except ProcessingError String) (u : Nat) (style : Style)
    (it : FeedItem) (v : ProcessedFeedItem)
    (hok : processFeedItem extract gen it.url style = .ok (.ok v)) :
    ∀ (items : List FeedItem) (s : SaveState) (l : List ProcessedFeedItem)
      (s' : SaveState),
      runItems extract gen u style s items = .ok (l, s') →
      it ∈ items → 1 ≤ briefCount s' u it.id := by
  intro items
  induction items with
  | nil =>
    intro s l s' _ hmem
    exact absurd hmem (List.not_mem_nil it)
  | cons a rest ih =>
    intro s l s' h hmem
    rcases List.mem_cons.mp hmem with heq | hmem'
    · subst heq
      rw [runItems_cons_ok extract gen u style s it rest v hok] at h
      cases hr : runItems extract gen u style
          (saveBriefItem s u it.id v.title v.summary it.url).2 rest with
      | error exn =>
        rw [hr] at h
        exact absurd h (by simp)
      | ok pr =>
        obtain ⟨l₂, s₂⟩ := pr
        rw [hr] at h
        have h' : (Except.ok
            ({ url := it.url, title := v.title, summary := v.summary } :: l₂, s₂) :
            Except String (List ProcessedFeedItem × SaveState)) = .ok (l, s') := h
        simp only [Except.ok.injEq, Prod.mk.injEq] at h'
        rw [← h'.2]
        exact le_trans (briefCount_save_pos s u it.id v.title v.summary it.url)
          (runItems_ok_mono extract gen u style u it.id rest _ _ _ hr)
    · unfold runItems at h
      split at h
      · exact absurd h (by simp)
      · exact ih _ _ _ h hmem'
      · next v' heq =>
        split at h
        · exact absurd h (by simp)
        · next l₂ s₂ hr =>
          simp only [Except.ok.injEq, Prod.mk.injEq] at h
          rw [← h.2]
          exact ih _ _ _ hr hmem'

theorem runItems_error_of_mem
    (extract : String → Except ProcessingError ExtractResponse)
    (gen : String → Except ProcessingError String) (u : Nat) (style : Style)
    (it : FeedItem) (m : String)
    (herr : processFeedItem extract gen it.url style = .error m) :
    ∀ (items : List FeedItem) (s : SaveState), it ∈ items →
      ∃ exn, runItems extract gen u style s items = .error exn := by
  intro items
  induction items with
  | nil =>
    intro s hmem
    exact absurd hmem (List.not_mem_nil it)
  | cons a rest ih =>
    intro s hmem
    cases hp : processFeedItem extract gen a.url style with
    | error exn =>
      exact ⟨exn, runItems_cons_exn extract gen u style s a rest exn hp⟩
    | ok res =>
      rcases List.mem_cons.mp hmem with heq | hmem'
      · subst heq
        rw [herr] at hp
        exact absurd hp (by simp)
      · cases res with
        | error e =>
          obtain ⟨exn, hex⟩ := ih s hmem'
          refine ⟨exn, ?_⟩
          rw [runItems_cons_err extract gen u style s a rest e hp]
          exact hex
        | ok v =>
          obtain ⟨exn, hex⟩ :=
            ih (saveBriefItem s u a.id v.title v.summary a.url).2 hmem'
          refine ⟨exn, ?_⟩
          rw [runItems_cons_ok extract gen u style s a rest v hp, hex]

theorem not_mem_existing_of_count_zero {s : SaveState} {u : Nat}
    {items : List FeedItem} {it : FeedItem}
    (h0 : briefCount s u it.id = 0) :
    it.id ∉ existingBriefFeedItemIds s u items := by
  intro hmem
  unfold existingBriefFeedItemIds at hmem
  simp only [List.mem_map, List.mem_filter] at hmem
  obtain ⟨r, ⟨hr, hcond⟩, hid⟩ := hmem
  rw [Bool.and_eq_true] at hcond
  have hu : r.userId = u := by simpa using hcond.1
  have hpred : (r.userId == u && r.feedItemId == it.id) = true := by
    simp [hu, hid]
  have h0' : s.rows.countP (fun r => r.userId == u && r.feedItemId == it.id) = 0 :=
    h0
  exact (List.countP_eq_zero.mp h0' r hr) hpred

theorem mem_feedItemsToProcess {s : SaveState} {u : Nat}
    {items : List FeedItem} {it : FeedItem} (hit : it ∈ items)
    (h0 : briefCount s u it.id = 0) :
    it ∈ feedItemsToProcess s u items := by
  unfold feedItemsToProcess
  rw [List.mem_filter]
  exact ⟨hit, by rw [decide_eq_true_eq]; exact not_mem_existing_of_count_zero h0⟩

theorem feedItemsToProcess_eq_self {s : SaveState} {u : Nat}
    {items : List FeedItem}
    (h : ∀ it ∈ items, briefCount s u it.id = 0) :
    feedItemsToProcess s u items = items := by
  unfold feedItemsToProcess
  rw [List.filter_eq_self]
  intro it hit
  rw [decide_eq_true_eq]
  exact not_mem_existing_of_count_zero (h it hit)

theorem saveBriefItem_fresh (s : SaveState) (u fi : Nat) (t sm url : String)
    (h0 : briefCount s u fi = 0) :
    saveBriefItem s u fi t sm url =
      (s.nextId,
        { rows := s.rows ++ [⟨s.nextId, u, fi, t, sm, url⟩]
          nextId := s.nextId + 1 }) := by
  unfold saveBriefItem
  rw [(findBrief_eq_none_iff s u fi).mpr h0]

theorem saveBriefItem_fresh_snd (s : SaveState) (u fi : Nat) (t sm url : String)
    (h0 : briefCount s u fi = 0) :
    (saveBriefItem s u fi t sm url).2 =
      { rows := s.rows ++ [⟨s.nextId, u, fi, t, sm, url⟩]
        nextId := s.nextId + 1 } := by
  rw [saveBriefItem_fresh s u fi t sm url h0]

/-! ### C4: brief idempotence -/

/-- **C4.**  (1) A save attempt for an already-saved `(user, feedItem)`
pair returns the existing row's id and leaves the table unchanged.  (2)
Running the brief compiler twice over the same feed item set never takes a
pair's row count above 1.  (3) A pair that starts absent and whose item
processes successfully has exactly one row after the two runs. -/
theorem c4_brief_idempotence :
    (∀ (s : SaveState) (u fi : Nat) (t sm url : String) (r : BriefRow),
      findBrief s u fi = some r → saveBriefItem s u fi t sm url = (r.id, s)) ∧
    (∀ (extract : String → Except ProcessingError ExtractResponse)
      (gen : String → Except ProcessingError String) (u : Nat) (style : Style)
      (s₀ : SaveState) (items : List FeedItem) (l₁ : List ProcessedFeedItem)
      (s₁ : SaveState) (l₂ : List ProcessedFeedItem) (s₂ : SaveState)
      (u' fi' : Nat),
      updateUserBriefsRun extract gen u style s₀ items = .ok (l₁, s₁) →
      updateUserBriefsRun extract gen u style s₁ items = .ok (l₂, s₂) →
      briefCount s₀ u' fi' ≤ 1 → briefCount s₂ u' fi' ≤ 1) ∧
    (∀ (extract : String → Except ProcessingError ExtractResponse)
      (gen : String → Except ProcessingError String) (u : Nat) (style : Style)
      (s₀ : SaveState) (items : List FeedItem) (l₁ : List ProcessedFeedItem)
      (s₁ : SaveState) (l₂ : List ProcessedFeedItem) (s₂ : SaveState)
      (it : FeedItem) (v : ProcessedFeedItem),
      updateUserBriefsRun extract gen u style s₀ items = .ok (l₁, s₁) →
      updateUserBriefsRun extract gen u style s₁ items = .ok (l₂, s₂) →
      it ∈ items → briefCount s₀ u it.id = 0 →
      processFeedItem extract gen it.url style = .ok (.ok v) →
      briefCount s₂ u it.id = 1) := by
  refine ⟨?_, ?_, ?_⟩
  · intro s u fi t sm url r h
    unfold saveBriefItem
    rw [h]
  · intro extract gen u style s₀ items l₁ s₁ l₂ s₂ u' fi' h1 h2 hle
    exact runItems_ok_le_one extract gen u style u' fi' _ _ _ _ h2
      (runItems_ok_le_one extract gen u style u' fi' _ _ _ _ h1 hle)
  · intro extract gen u style s₀ items l₁ s₁ l₂ s₂ it v h1 h2 hit h0 hok
    have hmem : it ∈ feedItemsToProcess s₀ u items :=
      mem_feedItemsToProcess hit h0
    have hone : 1 ≤ briefCount s₁ u it.id :=
      runItems_ok_saved extract gen u style it v hok _ _ _ _ h1 hmem
    have hle1 : briefCount s₁ u it.id ≤ 1 :=
      runItems_ok_le_one extract gen u style u it.id _ _ _ _ h1 (by omega)
    have hmono : briefCount s₁ u it.id ≤ briefCount s₂ u it.id :=
      runItems_ok_mono extract gen u style u it.id _ _ _ _ h2
    have hle2 : briefCount s₂ u it.id ≤ 1 :=
      runItems_ok_le_one extract gen u style u it.id _ _ _ _ h2 hle1
    omega

/-- Witness for `c4_brief_idempotence`: one item processed successfully
twice from an empty table ends with exactly one row for the pair. -/
theorem c4_brief_idempotence_witness :
    briefCount
      { rows := [⟨0, 0, 1, "T", "sum", "a"⟩], nextId := 1 } 0 1 = 1 := by
  refine c4_brief_idempotence.2.2
    (fun _ => .ok { data := { title := "T", content := "body" } })
    (fun _ => .ok "sum") 0 .concise { rows := [], nextId := 0 }
    [⟨1, "a"⟩] [⟨"a", "T", "sum"⟩]
    { rows := [⟨0, 0, 1, "T", "sum", "a"⟩], nextId := 1 }
    [] { rows := [⟨0, 0, 1, "T", "sum", "a"⟩], nextId := 1 }
    ⟨1, "a"⟩ ⟨"a", "T", "sum"⟩
    (by rfl) (by rfl) (by decide) (by rfl) (by rfl)

/-! ### C8: skip-on-error in the brief compiler batch -/

/-- **C8.**  In a batch `[A, B, C]` with none of the three already saved,
if extraction and prompting succeed for B but the Summarizer returns an
error (`safeGenerateText` yields `err`), while A and C process
successfully, then `updateUserBriefs` completes without raising, returns
exactly the records for A and C, and persists Brief Item rows for A and C
only. -/
theorem c8_skip_on_error
    (extract : String → Except ProcessingError ExtractResponse)
    (gen : String → Except ProcessingError String) (u : Nat) (style : Style)
    (s₀ : SaveState) (A B C : FeedItem) (a' c' : ProcessedFeedItem)
    (respB : ExtractResponse) (promptB : String) (e : ProcessingError)
    (hA : processFeedItem extract gen A.url style = .ok (.ok a'))
    (hBx : extract B.url = .ok respB)
    (hBp : createPrompt respB.data.content style = .ok promptB)
    (hBg : gen promptB = .error e)
    (hC : processFeedItem extract gen C.url style = .ok (.ok c'))
    (hA0 : briefCount s₀ u A.id = 0) (hB0 : briefCount s₀ u B.id = 0)
    (hC0 : briefCount s₀ u C.id = 0) (hAC : A.id ≠ C.id) :
    updateUserBriefsRun extract gen u style s₀ [A, B, C] =
      .ok ([⟨A.url, a'.title, a'.summary⟩, ⟨C.url, c'.title, c'.summary⟩],
        { rows := s₀.rows ++
            [⟨s₀.nextId, u, A.id, a'.title, a'.summary, A.url⟩,
             ⟨s₀.nextId + 1, u, C.id, c'.title, c'.summary, C.url⟩]
          nextId := s₀.nextId + 2 }) := by
  have hB : processFeedItem extract gen B.url style = .ok (.error e) := by
    simp [processFeedItem, hBx, hBp, hBg]
  have hfilter : feedItemsToProcess s₀ u [A, B, C] = [A, B, C] := by
    apply feedItemsToProcess_eq_self
    intro it hit
    simp only [List.mem_cons, List.not_mem_nil, or_false] at hit
    rcases hit with rfl | rfl | rfl
    exacts [hA0, hB0, hC0]
  have hC1 : briefCount
      { rows := s₀.rows ++ [⟨s₀.nextId, u, A.id, a'.title, a'.summary, A.url⟩]
        nextId := s₀.nextId + 1 } u C.id = 0 := by
    have hACne : (A.id == C.id) = false := by simp [hAC]
    simp only [briefCount, List.countP_append, List.countP_cons,
      List.countP_nil, hACne, beq_self_eq_true, Bool.and_false,
      Bool.true_and]
    have hC0' : s₀.rows.countP
        (fun r => r.userId == u && r.feedItemId == C.id) = 0 := hC0
    simp [hC0']
  unfold updateUserBriefsRun
  rw [hfilter, runItems_cons_ok extract gen u style s₀ A [B, C] a' hA,
    saveBriefItem_fresh_snd s₀ u A.id a'.title a'.summary A.url hA0,
    runItems_cons_err extract gen u style _ B [C] e hB,
    runItems_cons_ok extract gen u style _ C [] c' hC,
    saveBriefItem_fresh_snd _ u C.id c'.title c'.summary C.url hC1,
    runItems_nil]
  simp [List.append_assoc]

/-- Witness for `c8_skip_on_error`: a concrete batch of three urls where
the Summarizer fails exactly on the middle item's prompt. -/
theorem c8_skip_on_error_witness :
    updateUserBriefsRun (fun url => .ok { data := { title := url, content := url } })
      (fun p => if p = "b" ++ concisePromptSuffix then
          .error { step := "ai-generation", message := "AI generation failed" }
        else .ok "s")
      0 .concise { rows := [], nextId := 0 } [⟨1, "a"⟩, ⟨2, "b"⟩, ⟨3, "c"⟩] =
      .ok ([⟨"a", "a", "s"⟩, ⟨"c", "c", "s"⟩],
        { rows := [⟨0, 0, 1, "a", "s", "a"⟩, ⟨1, 0, 3, "c", "s", "c"⟩]
          nextId := 2 }) := by
  have h := c8_skip_on_error
    (fun url => .ok { data := { title := url, content := url } })
    (fun p => if p = "b" ++ concisePromptSuffix then
        .error { step := "ai-generation", message := "AI generation failed" }
      else .ok "s")
    0 .concise { rows := [], nextId := 0 } ⟨1, "a"⟩ ⟨2, "b"⟩ ⟨3, "c"⟩
    ⟨"a", "a", "s"⟩ ⟨"c", "c", "s"⟩
    { data := { title := "b", content := "b" } } ("b" ++ concisePromptSuffix)
    { step := "ai-generation", message := "AI generation failed" }
    (by rfl) (by rfl) (by rfl) (by rfl) (by rfl)
    (by rfl) (by rfl) (by rfl) (by decide)
  simpa using h

/-! ### C9: empty extracted content throws instead of skipping -/

/-- **C9.**  When extraction succeeds but the extracted content trims to
empty, `createPrompt` throws, so `processFeedItem` produces a thrown
exception (`Except.error`) rather than an `err` result, and any batch of
`updateUserBriefs` that processes such an item rejects as a whole instead
of skipping the single item. -/
theorem c9_empty_content_rejects
    (extract : String → Except ProcessingError ExtractResponse)
    (gen : String → Except ProcessingError String) (url : String)
    (style : Style) (resp : ExtractResponse)
    (hx : extract url = .ok resp) (hempty : jsTrim resp.data.content = "") :
    processFeedItem extract gen url style = .error "Input text cannot be empty" ∧
    ∀ (u : Nat) (s₀ : SaveState) (items : List FeedItem) (it : FeedItem),
      it ∈ feedItemsToProcess s₀ u items → it.url = url →
      ∃ exn, updateUserBriefsRun extract gen u style s₀ items = .error exn := by
  have hthrow : processFeedItem extract gen url style =
      .error "Input text cannot be empty" := by
    simp [processFeedItem, hx, createPrompt, hempty]
  refine ⟨hthrow, ?_⟩
  intro u s₀ items it hmem hurl
  have herr : processFeedItem extract gen it.url style =
      .error "Input text cannot be empty" := by
    rw [hurl]
    exact hthrow
  simpa [updateUserBriefsRun] using
    runItems_error_of_mem extract gen u style it _ herr
      (feedItemsToProcess s₀ u items) s₀ hmem

/-- Witness for `c9_empty_content_rejects`: whitespace-only extracted
content makes the single-item batch reject. -/
theorem c9_empty_content_rejects_witness :
    processFeedItem (fun _ => .ok { data := { title := "t", content := "  " } })
        (fun _ => .ok "s") "w" .concise =
      .error "Input text cannot be empty" ∧
    ∃ exn, updateUserBriefsRun
        (fun _ => .ok { data := { title := "t", content := "  " } })
        (fun _ => .ok "s") 0 .concise { rows := [], nextId := 0 }
        [⟨5, "w"⟩] = .error exn := by
  have h := c9_empty_content_rejects
    (fun _ => .ok { data := { title := "t", content := "  " } })
    (fun _ => .ok "s") "w" .concise
    { data := { title := "t", content := "  " } } rfl (by decide)
  exact ⟨h.1, h.2 0 { rows := [], nextId := 0 } [⟨5, "w"⟩] ⟨5, "w"⟩
    (by decide) rfl⟩

/-! ### C5: refresh cutoff correctness -/

/-- **C5.**  For a never-fetched feed the cutoff is `now − 7 days`: an
item published 10 days ago is discarded while items published 3 days and 1
hour ago are ingested (fresh url).  With a positive stored checkpoint `c`,
an item with valid `pubDate` `p` is ingested exactly when `c ≤ p`.  An
item with a missing, empty or unparseable `pubDate` gets
`publishedAt = now` and survives the cutoff (for a checkpoint `c ≤ now`). -/
theorem c5_cutoff_correctness (parseDate : String → Option Int) (now : Int)
    (db : List String) (u : String) (hu : u ≠ "") :
    refreshCutoff now none = now - ONE_WEEK ∧
    (∀ s : String, s ≠ "" → parseDate s = some (now - 10 * ONE_DAY) →
      itemDecision parseDate now none db
        { link := some u, pubDate := some s } = none) ∧
    (∀ s : String, s ≠ "" → parseDate s = some (now - 3 * ONE_DAY) → u ∉ db →
      itemDecision parseDate now none db
        { link := some u, pubDate := some s } = some (u, now - 3 * ONE_DAY)) ∧
    (∀ s : String, s ≠ "" → parseDate s = some (now - ONE_HOUR) → u ∉ db →
      itemDecision parseDate now none db
        { link := some u, pubDate := some s } = some (u, now - ONE_HOUR)) ∧
    (∀ (c p : Int) (s : String), 0 < c → s ≠ "" → parseDate s = some p →
      u ∉ db →
      itemDecision parseDate now (some c) db
        { link := some u, pubDate := some s } =
        if c ≤ p then some (u, p) else none) ∧
    (u ∉ db →
      itemDecision parseDate now none db
        { link := some u, pubDate := none } = some (u, now)) ∧
    (∀ c : Int, 0 < c → c ≤ now → u ∉ db →
      itemDecision parseDate now (some c) db
        { link := some u, pubDate := none } = some (u, now)) ∧
    (∀ (c : Int) (s : String), 0 < c → c ≤ now → s ≠ "" → parseDate s = none →
      u ∉ db →
      itemDecision parseDate now (some c) db
        { link := some u, pubDate := some s } = some (u, now)) := by
  have hW : ONE_WEEK = 604800000 := by norm_num [ONE_WEEK]
  have hD : ONE_DAY = 86400000 := by norm_num [ONE_DAY]
  have hH : ONE_HOUR = 3600000 := by norm_num [ONE_HOUR]
  have hlt_coz : ∀ x c : Int, x < c → (c = 0 → x < 0) → x < cutoffOrZero c := by
    intro x c h1 h2
    unfold cutoffOrZero
    split
    · next hb => exact h2 (by simpa using hb)
    · exact h1
  have hnlt_coz : ∀ x c : Int, c ≤ x → (c = 0 → 0 ≤ x) →
      ¬ (x < cutoffOrZero c) := by
    intro x c h1 h2
    unfold cutoffOrZero
    split
    · next hb =>
      have := h2 (by simpa using hb)
      omega
    · omega
  have hrcS : ∀ c : Int, c ≠ 0 → refreshCutoff now (some c) = c := by
    intro c hcne
    unfold refreshCutoff isFirstFetch
    have hb : (c == 0) = false := by simp [hcne]
    simp [hb]
  have hcozS : ∀ c : Int, c ≠ 0 → cutoffOrZero c = c := by
    intro c hcne
    unfold cutoffOrZero
    have hb : (c == 0) = false := by simp [hcne]
    simp [hb]
  refine ⟨rfl, ?_, ?_, ?_, ?_, ?_, ?_, ?_⟩
  · intro s hs hp
    have hlt : now - 10 * ONE_DAY <
        cutoffOrZero (refreshCutoff now none) := by
      show now - 10 * ONE_DAY < cutoffOrZero (now - ONE_WEEK)
      apply hlt_coz
      · rw [hW, hD]; omega
      · intro h0; rw [hD]; rw [hW] at h0; omega
    simp [itemDecision, computePublishedAt, hu, hs, hp, hlt]
  · intro s hs hp hdb
    have hge : ¬ (now - 3 * ONE_DAY <
        cutoffOrZero (refreshCutoff now none)) := by
      show ¬ (now - 3 * ONE_DAY < cutoffOrZero (now - ONE_WEEK))
      apply hnlt_coz
      · rw [hW, hD]; omega
      · intro h0; rw [hD]; rw [hW] at h0; omega
    simp [itemDecision, computePublishedAt, hu, hs, hp, hge, hdb]
  · intro s hs hp hdb
    have hge : ¬ (now - ONE_HOUR <
        cutoffOrZero (refreshCutoff now none)) := by
      show ¬ (now - ONE_HOUR < cutoffOrZero (now - ONE_WEEK))
      apply hnlt_coz
      · rw [hW, hH]; omega
      · intro h0; rw [hH]; rw [hW] at h0; omega
    simp [itemDecision, computePublishedAt, hu, hs, hp, hge, hdb]
  · intro c p s hcpos hs hp hdb
    have hcoz : cutoffOrZero (refreshCutoff now (some c)) = c := by
      rw [hrcS c (by omega), hcozS c (by omega)]
    by_cases hcp : c ≤ p
    · have hge : ¬ (p < cutoffOrZero (refreshCutoff now (some c))) := by
        rw [hcoz]; omega
      simp [itemDecision, computePublishedAt, hu, hs, hp, hge, hdb, hcp]
    · have hlt : p < cutoffOrZero (refreshCutoff now (some c)) := by
        rw [hcoz]; omega
      simp [itemDecision, computePublishedAt, hu, hs, hp, hlt, hcp]
  · intro hdb
    have hge : ¬ (now < cutoffOrZero (refreshCutoff now none)) := by
      show ¬ (now < cutoffOrZero (now - ONE_WEEK))
      apply hnlt_coz
      · rw [hW]; omega
      · intro h0; rw [hW] at h0; omega
    simp [itemDecision, computePublishedAt, hu, hge, hdb]
  · intro c hcpos hcle hdb
    have hge : ¬ (now < cutoffOrZero (refreshCutoff now (some c))) := by
      rw [hrcS c (by omega), hcozS c (by omega)]
      omega
    simp [itemDecision, computePublishedAt, hu, hge, hdb]
  · intro c s hcpos hcle hs hp hdb
    have hge : ¬ (now < cutoffOrZero (refreshCutoff now (some c))) := by
      rw [hrcS c (by omega), hcozS c (by omega)]
      omega
    simp [itemDecision, computePublishedAt, hu, hs, hp, hge, hdb]

/-- Witness for `c5_cutoff_correctness` at concrete timestamps. -/
theorem c5_cutoff_correctness_witness :
    itemDecision
        (fun s => if s = "d10" then some (1700000000000 - 10 * ONE_DAY)
          else if s = "d3" then some (1700000000000 - 3 * ONE_DAY)
          else if s = "h1" then some (1700000000000 - ONE_HOUR) else none)
        1700000000000 none ["https://dup"]
        { link := some "https://a", pubDate := some "d10" } = none ∧
    itemDecision
        (fun s => if s = "d10" then some (1700000000000 - 10 * ONE_DAY)
          else if s = "d3" then some (1700000000000 - 3 * ONE_DAY)
          else if s = "h1" then some (1700000000000 - ONE_HOUR) else none)
        1700000000000 none ["https://dup"]
        { link := some "https://a", pubDate := some "d3" } =
      some ("https://a", 1700000000000 - 3 * ONE_DAY) ∧
    itemDecision
        (fun s => if s = "d10" then some (1700000000000 - 10 * ONE_DAY)
          else if s = "d3" then some (1700000000000 - 3 * ONE_DAY)
          else if s = "h1" then some (1700000000000 - ONE_HOUR) else none)
        1700000000000 none ["https://dup"]
        { link := some "https://a", pubDate := some "h1" } =
      some ("https://a", 1700000000000 - ONE_HOUR) ∧
    itemDecision
        (fun s => if s = "d10" then some (1700000000000 - 10 * ONE_DAY)
          else if s = "d3" then some (1700000000000 - 3 * ONE_DAY)
          else if s = "h1" then some (1700000000000 - ONE_HOUR) else none)
        1700000000000 (some 1699000000000) ["https://dup"]
        { link := some "https://a", pubDate := none } =
      some ("https://a", 1700000000000) := by
  have h := c5_cutoff_correctness
    (fun s => if s = "d10" then some (1700000000000 - 10 * ONE_DAY)
      else if s = "d3" then some (1700000000000 - 3 * ONE_DAY)
      else if s = "h1" then some (1700000000000 - ONE_HOUR) else none)
    1700000000000 ["https://dup"] "https://a" (by decide)
  refine ⟨h.2.1 "d10" (by decide) (by simp), ?_, ?_, ?_⟩
  · exact h.2.2.1 "d3" (by decide) (by simp) (by decide)
  · exact h.2.2.2.1 "h1" (by decide) (by simp) (by decide)
  · exact h.2.2.2.2.2.2.1 1699000000000 (by decide) (by decide) (by decide)

/-! ### C6: partial-failure isolation in `updateAllFeeds` -/

theorem updateAllFeedsRun_append (pd : String → Option Int)
    (ex : String → Option (String × String)) (now : Int) (st : RefreshState)
    (l₁ l₂ : List (Feed × Except ProcessingError (List RSSItem))) :
    updateAllFeedsRun pd ex now st (l₁ ++ l₂) =
      updateAllFeedsRun pd ex now (updateAllFeedsRun pd ex now st l₁) l₂ := by
  unfold updateAllFeedsRun
  exact List.foldl_append _ _ _ _

theorem updateAllFeedsRun_checkpoints_preserved (pd : String → Option Int)
    (ex : String → Option (String × String)) (now : Int) :
    ∀ (fs : List (Feed × Except ProcessingError (List RSSItem)))
      (st : RefreshState) (j : Nat),
      j ∉ fs.map (fun fp => fp.1.id) →
      (updateAllFeedsRun pd ex now st fs).checkpoints j = st.checkpoints j := by
  intro fs
  induction fs with
  | nil => intro st j _; rfl
  | cons fp rest ih =>
    intro st j hj
    simp only [List.map_cons, List.mem_cons, not_or] at hj
    obtain ⟨hj1, hj2⟩ := hj
    have hstep : (processFeedStep pd ex now st fp).checkpoints j =
        st.checkpoints j := by
      unfold processFeedStep
      cases hpr : fp.2 with
      | error e => rfl
      | ok items =>
        cases items with
        | nil => rfl
        | cons a t => simp [hj1]
    have hrun : updateAllFeedsRun pd ex now st (fp :: rest) =
        updateAllFeedsRun pd ex now (processFeedStep pd ex now st fp) rest := rfl
    rw [hrun, ih _ j hj2, hstep]

/-- **C6.**  In one `updateAllFeeds` batch: (1) a feed whose fetch/parse
fails contributes nothing — the run over the batch equals the run with
that feed removed, so every sibling feed is processed exactly as it would
have been; (2) the failing feed's checkpoint is left unchanged; (3) a feed
whose payload parses with a non-empty item list has its checkpoint
advanced to the cycle's `now`, whatever the extraction oracle does to its
individual items. -/
theorem c6_partial_failure_isolation (pd : String → Option Int)
    (ex : String → Option (String × String)) (now : Int) :
    (∀ (st : RefreshState)
      (pre post : List (Feed × Except ProcessingError (List RSSItem)))
      (f : Feed) (e : ProcessingError),
      updateAllFeedsRun pd ex now st (pre ++ (f, .error e) :: post) =
        updateAllFeedsRun pd ex now st (pre ++ post)) ∧
    (∀ (st : RefreshState)
      (pre post : List (Feed × Except ProcessingError (List RSSItem)))
      (f : Feed) (e : ProcessingError),
      f.id ∉ (pre ++ post).map (fun fp => fp.1.id) →
      (updateAllFeedsRun pd ex now st
        (pre ++ (f, .error e) :: post)).checkpoints f.id =
        st.checkpoints f.id) ∧
    (∀ (st : RefreshState)
      (pre post : List (Feed × Except ProcessingError (List RSSItem)))
      (f : Feed) (items : List RSSItem),
      items ≠ [] → f.id ∉ post.map (fun fp => fp.1.id) →
      (updateAllFeedsRun pd ex now st
        (pre ++ (f, .ok items) :: post)).checkpoints f.id = some now) := by
  have ha : ∀ (st : RefreshState)
      (pre post : List (Feed × Except ProcessingError (List RSSItem)))
      (f : Feed) (e : ProcessingError),
      updateAllFeedsRun pd ex now st (pre ++ (f, .error e) :: post) =
        updateAllFeedsRun pd ex now st (pre ++ post) := by
    intro st pre post f e
    rw [updateAllFeedsRun_append, updateAllFeedsRun_append]
    rfl
  refine ⟨ha, ?_, ?_⟩
  · intro st pre post f e hmem
    rw [ha st pre post f e]
    exact updateAllFeedsRun_checkpoints_preserved pd ex now (pre ++ post) st
      f.id hmem
  · intro st pre post f items hne hpost
    rw [updateAllFeedsRun_append]
    show (updateAllFeedsRun pd ex now
      (processFeedStep pd ex now (updateAllFeedsRun pd ex now st pre)
        (f, .ok items)) post).checkpoints f.id = some now
    rw [updateAllFeedsRun_checkpoints_preserved pd ex now post _ f.id hpost]
    unfold processFeedStep
    cases items with
    | nil => exact absurd rfl hne
    | cons a t => simp

/-- Witness for `c6_partial_failure_isolation`: a batch of five feeds
where feed 3's fetch fails and every item extraction fails. -/
theorem c6_partial_failure_isolation_witness :
    (updateAllFeedsRun (fun _ => none) (fun _ => none) 100
        { articles := [], checkpoints := fun _ => none }
        [(⟨1, "u1", none⟩, .ok [⟨some "x", none⟩]),
         (⟨2, "u2", none⟩, .ok [⟨some "x", none⟩]),
         (⟨3, "u3", none⟩, .error ⟨"http-fetch", "boom", none⟩),
         (⟨4, "u4", none⟩, .ok [⟨some "x", none⟩]),
         (⟨5, "u5", none⟩, .ok [⟨some "x", none⟩])] =
      updateAllFeedsRun (fun _ => none) (fun _ => none) 100
        { articles := [], checkpoints := fun _ => none }
        [(⟨1, "u1", none⟩, .ok [⟨some "x", none⟩]),
         (⟨2, "u2", none⟩, .ok [⟨some "x", none⟩]),
         (⟨4, "u4", none⟩, .ok [⟨some "x", none⟩]),
         (⟨5, "u5", none⟩, .ok [⟨some "x", none⟩])]) ∧
    (updateAllFeedsRun (fun _ => none) (fun _ => none) 100
        { articles := [], checkpoints := fun _ => none }
        [(⟨1, "u1", none⟩, .ok [⟨some "x", none⟩]),
         (⟨2, "u2", none⟩, .ok [⟨some "x", none⟩]),
         (⟨3, "u3", none⟩, .error ⟨"http-fetch", "boom", none⟩),
         (⟨4, "u4", none⟩, .ok [⟨some "x", none⟩]),
         (⟨5, "u5", none⟩, .ok [⟨some "x", none⟩])]).checkpoints 3 = none ∧
    (updateAllFeedsRun (fun _ => none) (fun _ => none) 100
        { articles := [], checkpoints := fun _ => none }
        [(⟨1, "u1", none⟩, .ok [⟨some "x", none⟩]),
         (⟨2, "u2", none⟩, .ok [⟨some "x", none⟩]),
         (⟨3, "u3", none⟩, .error ⟨"http-fetch", "boom", none⟩),
         (⟨4, "u4", none⟩, .ok [⟨some "x", none⟩]),
         (⟨5, "u5", none⟩, .ok [⟨some "x", none⟩])]).checkpoints 2 = some 100 := by
  have h := c6_partial_failure_isolation (fun _ => none) (fun _ => none) 100
  refine ⟨?_, ?_, ?_⟩
  · simpa using h.1 { articles := [], checkpoints := fun _ => none }
      [(⟨1, "u1", none⟩, .ok [⟨some "x", none⟩]),
       (⟨2, "u2", none⟩, .ok [⟨some "x", none⟩])]
      [(⟨4, "u4", none⟩, .ok [⟨some "x", none⟩]),
       (⟨5, "u5", none⟩, .ok [⟨some "x", none⟩])]
      ⟨3, "u3", none⟩ ⟨"http-fetch", "boom", none⟩
  · simpa using h.2.1 { articles := [], checkpoints := fun _ => none }
      [(⟨1, "u1", none⟩, .ok [⟨some "x", none⟩]),
       (⟨2, "u2", none⟩, .ok [⟨some "x", none⟩])]
      [(⟨4, "u4", none⟩, .ok [⟨some "x", none⟩]),
       (⟨5, "u5", none⟩, .ok [⟨some "x", none⟩])]
      ⟨3, "u3", none⟩ ⟨"http-fetch", "boom", none⟩ (by decide)
  · simpa using h.2.2 { articles := [], checkpoints := fun _ => none }
      [(⟨1, "u1", none⟩, .ok [⟨some "x", none⟩])]
      [(⟨3, "u3", none⟩, .error ⟨"http-fetch", "boom", none⟩),
       (⟨4, "u4", none⟩, .ok [⟨some "x", none⟩]),
       (⟨5, "u5", none⟩, .ok [⟨some "x", none⟩])]
      ⟨2, "u2", none⟩ [⟨some "x", none⟩] (by decide) (by decide)

/-! ### C7: second refresh of an unchanged payload inserts nothing -/

theorem c7_item_skipped (parseDate : String → Option Int) (now₁ now₂ : Int)
    (updatedAt₀ : Option Int) (db : List String) (items : List RSSItem)
    (it : RSSItem)
    (hc : ∀ c : Int, updatedAt₀ = some c → c ≤ now₁) (h1 : 0 < now₁)
    (hit : it ∈ items) :
    itemDecision parseDate now₂ (some now₁)
      (db ++ (newFeedItems parseDate now₁ updatedAt₀ db items).map
        (fun x => x.1)) it = none := by
  have hWpos : (0 : Int) < ONE_WEEK := by norm_num [ONE_WEEK]
  have hb1 : (now₁ == 0) = false := by
    simp only [beq_eq_false_iff_ne, ne_eq]
    omega
  have hcoz2 : cutoffOrZero (refreshCutoff now₂ (some now₁)) = now₁ := by
    unfold refreshCutoff isFirstFetch cutoffOrZero
    simp [hb1]
  have hcoz1le : cutoffOrZero (refreshCutoff now₁ updatedAt₀) ≤ now₁ := by
    unfold refreshCutoff
    cases hff : isFirstFetch updatedAt₀ with
    | true =>
      simp only [if_true]
      unfold cutoffOrZero
      split <;> omega
    | false =>
      simp only [Bool.false_eq_true, if_false]
      cases hup : updatedAt₀ with
      | none => rw [hup] at hff; simp [isFirstFetch] at hff
      | some c =>
        have hcle : c ≤ now₁ := hc c hup
        simp only [Option.getD_some]
        unfold cutoffOrZero
        split <;> omega
  cases hlink : it.link with
  | none =>
    unfold itemDecision
    rw [hlink]
  | some u =>
    by_cases hu : u = ""
    · unfold itemDecision
      rw [hlink]
      simp [hu]
    · by_cases hp2 : computePublishedAt parseDate now₂ it <
          cutoffOrZero (refreshCutoff now₂ (some now₁))
      · unfold itemDecision
        rw [hlink]
        simp [hu, hp2]
      · have hp2' : now₁ ≤ computePublishedAt parseDate now₂ it := by
          rw [hcoz2] at hp2
          omega
        have hmemdb : u ∈ db ++ (newFeedItems parseDate now₁ updatedAt₀ db
            items).map (fun x => x.1) := by
          by_cases hdb : u ∈ db
          · exact List.mem_append_left _ hdb
          · have hp1 : computePublishedAt parseDate now₁ it = now₁ ∨
                computePublishedAt parseDate now₁ it =
                  computePublishedAt parseDate now₂ it := by
              unfold computePublishedAt
              cases hpd : it.pubDate with
              | none => exact Or.inl rfl
              | some s =>
                by_cases hs : s = ""
                · exact Or.inl (by simp [hs])
                · cases hq : parseDate s with
                  | none => exact Or.inl (by simp [hs, hq])
                  | some q => exact Or.inr (by simp [hs, hq])
            have hp1ge : ¬ (computePublishedAt parseDate now₁ it <
                cutoffOrZero (refreshCutoff now₁ updatedAt₀)) := by
              rcases hp1 with heq | heq <;> rw [heq] <;> omega
            have hdec1 : itemDecision parseDate now₁ updatedAt₀ db it =
                some (u, computePublishedAt parseDate now₁ it) := by
              unfold itemDecision
              rw [hlink]
              simp [hu, hp1ge, hdb]
            have hmem1 : (u, computePublishedAt parseDate now₁ it) ∈
                newFeedItems parseDate now₁ updatedAt₀ db items := by
              unfold newFeedItems
              exact List.mem_filterMap.mpr ⟨it, hit, hdec1⟩
            exact List.mem_append_right _ (List.mem_map.mpr ⟨_, hmem1, rfl⟩)
        unfold itemDecision
        rw [hlink]
        simp [hu, hp2, hmemdb]

/-- **C7.**  Running the single-feed refresh a second time against the
unchanged payload — after the first run advanced the checkpoint to `now₁`
and inserted its items' urls into the table — inserts zero additional feed
items: every surviving item is caught by the lookup-by-URL dedup check (or
discarded by the advanced cutoff). -/
theorem c7_dedup_idempotence (parseDate : String → Option Int)
    (now₁ now₂ : Int) (updatedAt₀ : Option Int) (db : List String)
    (items : List RSSItem)
    (hc : ∀ c : Int, updatedAt₀ = some c → c ≤ now₁) (h1 : 0 < now₁) :
    newFeedItems parseDate now₂ (some now₁)
      (db ++ (newFeedItems parseDate now₁ updatedAt₀ db items).map
        (fun x => x.1)) items = [] := by
  have hall : ∀ it ∈ items,
      itemDecision parseDate now₂ (some now₁)
        (db ++ (newFeedItems parseDate now₁ updatedAt₀ db items).map
          (fun x => x.1)) it = none := fun it hit =>
    c7_item_skipped parseDate now₁ now₂ updatedAt₀ db items it hc h1 hit
  unfold newFeedItems
  rw [List.filterMap_eq_nil_iff]
  intro it hit
  exact hall it hit

/-- Witness for `c7_dedup_idempotence`: a payload with a fresh item, a
pre-existing url, a linkless entry and an unparseable date, refreshed
twice. -/
theorem c7_dedup_idempotence_witness :
    newFeedItems (fun _ => none) 2000000 (some 1000000)
      (["https://d"] ++ (newFeedItems (fun _ => none) 1000000 none
        ["https://d"]
        [⟨some "https://a", none⟩, ⟨some "https://d", none⟩, ⟨none, none⟩,
         ⟨some "https://b", some "notadate"⟩]).map (fun x => x.1))
      [⟨some "https://a", none⟩, ⟨some "https://d", none⟩, ⟨none, none⟩,
       ⟨some "https://b", some "notadate"⟩] = [] := by
  exact c7_dedup_idempotence (fun _ => none) 1000000 2000000 none
    ["https://d"]
    [⟨some "https://a", none⟩, ⟨some "https://d", none⟩, ⟨none, none⟩,
     ⟨some "https://b", some "notadate"⟩]
    (by intro c h; cases h) (by decide)

end RssBrief
